import Mathlib

/-!
Verification of the mapped_region class of boost/interprocess/mapped_region.hpp
(cmazakas/interprocess snapshot).  The header contains two platform drivers
selected by the preprocessor: a Win32 (handle-based) family and a POSIX
(descriptor-based) family.  Both are embedded below as pure Lean functions over
explicit state records.  OS primitives (mmap, MapViewOfFileEx, msync, ...) are
oracles supplied through environment records, and every OS call a routine
issues is recorded in a trace.

Machine integers: the POSIX build is modelled with 64-bit size_t and 64-bit
signed offset_t (off_t).  The Win32 build of this 2005-2007 era header is
modelled as the 32-bit Windows target it was written for: 32-bit std::size_t
and unsigned long, 64-bit signed __int64 offset_t, matching the (high, low)
splitting of the file offset in the source.  Conversions wrap modulo
2^32 / 2^64 exactly where the corresponding C++ conversions do.
-/

/-- Value of a C++ signed expression converted to 64-bit size_t (wraps mod 2^64). -/
def toU64 (x : Int) : Nat := (x % (2 ^ 64 : Int)).toNat

/-- Value of a C++ integer expression converted to a 32-bit unsigned type (wraps mod 2^32). -/
def toU32 (x : Int) : Nat := (x % (2 ^ 32 : Int)).toNat

/-- A 64-bit unsigned value read back as signed 64-bit (two's complement), as the
C++ conversion from std::size_t to offset_t does. -/
def i64ofU64 (x : Nat) : Int :=
  if x % 2 ^ 64 < 2 ^ 63 then ((x % 2 ^ 64 : Nat) : Int) else ((x % 2 ^ 64 : Nat) : Int) - 2 ^ 64

/-- Arithmetic right shift by 32 of a signed 64-bit value (MSVC semantics of
the shift at line 267 of the source); equals floor division by 2^32. -/
def ashr32 (x : Int) : Int := Int.fdiv x (2 ^ 32)

/-- MAP_FAILED, i.e. (void*)-1, the POSIX unmapped sentinel for m_base. -/
def mapFailed : Int := -1

/-- Modelled from the spec and from the uses inside src: detail::invalid_file()
is defined in os_file_functions.hpp, which is not part of this snapshot's
sources.  Within mapped_region.hpp itself, priv_close (line 349) and the
create_file_mapping failure check (line 248) treat 0 as the absent-handle
value and priv_close resets the member to 0, and the spec's idempotent-close
contract requires a default-constructed instance to own no handle, so the
invalid handle value is modelled as 0. -/
def invalid_file : Int := 0

/-- boost::interprocess mode_t.  The first three constructors are the modes the
constructor's switch recognises; `other` stands for every remaining value of
the underlying enum (the switch's default branch). -/
inductive ModeT where
  | read_only
  | read_write
  | copy_on_write
  | other (n : Nat)
deriving Repr, DecidableEq

/-- Error kinds carried by interprocess_exception that this header can throw:
mode_error, size_error, or an OS error code (error_info from
get_last_error / system_error_code), collapsed here to system_error. -/
inductive IpcErr where
  | mode_error
  | size_error
  | system_error
deriving Repr, DecidableEq

/-- One OS call issued by the embedded routines, with its inputs and (for
calls whose result the code inspects) its oracle-provided result. -/
inductive OsCall where
  | lseek (fd : Int) (off : Int) (res : Int)
  | mmap (hint : Int) (len : Nat) (prot : Nat) (flags : Nat) (fd : Int) (foff : Int) (res : Int)
  | msync (addr : Int) (len : Nat)
  | munmap (addr : Int) (len : Nat)
  | getFileSize (ok : Bool) (sz : Int)
  | createFileMapping (access : Nat) (res : Int)
  | duplicateHandle (src : Int) (res : Option Int)
  | mapViewOfFileEx (access : Nat) (fhigh : Nat) (flow : Nat) (len : Nat) (hint : Int) (res : Int)
  | closeHandle (h : Int)
  | unmapViewOfFile (addr : Int)
  | flushViewOfFile (addr : Int) (len : Nat)
deriving Repr, DecidableEq

/-- The members of mapped_region in the POSIX build (no handle member). -/
structure RegionP where
  m_base : Int
  m_size : Nat
  m_offset : Int
  m_extra_offset : Int
deriving Repr, DecidableEq

/-- The members of mapped_region in the Windows build. -/
structure RegionW where
  m_base : Int
  m_size : Nat
  m_offset : Int
  m_extra_offset : Int
  m_file_mapping_hnd : Int
deriving Repr, DecidableEq

/-- The POSIX default constructor: m_base(MAP_FAILED), m_size(0), m_offset(0),
m_extra_offset(0). -/
def defaultRegionP : RegionP := ⟨mapFailed, 0, 0, 0⟩

/-- The Windows default constructor: m_base(0), sizes zero, handle invalid. -/
def defaultRegionW : RegionW := ⟨0, 0, 0, 0, invalid_file⟩

/-- get_size (line 150): returns m_size. -/
def RegionP.get_size (r : RegionP) : Nat := r.m_size

/-- get_offset (line 153): returns m_offset. -/
def RegionP.get_offset (r : RegionP) : Int := r.m_offset

/-- get_address (line 156): returns m_base. -/
def RegionP.get_address (r : RegionP) : Int := r.m_base

/-- get_size for the Windows build. -/
def RegionW.get_size (w : RegionW) : Nat := w.m_size

/-- get_offset for the Windows build. -/
def RegionW.get_offset (w : RegionW) : Int := w.m_offset

/-- get_address for the Windows build. -/
def RegionW.get_address (w : RegionW) : Int := w.m_base

/-- mapped_region::swap (lines 512-521): do_swap of every member.  Returns the
pair (new this, new other). -/
def RegionP.swap (x y : RegionP) : RegionP × RegionP :=
  (⟨y.m_base, y.m_size, y.m_offset, y.m_extra_offset⟩,
   ⟨x.m_base, x.m_size, x.m_offset, x.m_extra_offset⟩)

/-- mapped_region::swap, Windows build: also swaps m_file_mapping_hnd. -/
def RegionW.swap (x y : RegionW) : RegionW × RegionW :=
  (⟨y.m_base, y.m_size, y.m_offset, y.m_extra_offset, y.m_file_mapping_hnd⟩,
   ⟨x.m_base, x.m_size, x.m_offset, x.m_extra_offset, x.m_file_mapping_hnd⟩)

/-- Move assignment (lines 143-144): this->swap(other); return *this.
Returns (new a, new b) for a = move(b). -/
def moveAssignP (a b : RegionP) : RegionP × RegionP := RegionP.swap a b

/-- Move assignment, Windows build. -/
def moveAssignW (a b : RegionW) : RegionW × RegionW := RegionW.swap a b

/-- Move construction (lines 367-370): default-construct, then swap with other.
Returns (new object, moved-from other). -/
def moveConstructP (b : RegionP) : RegionP × RegionP := RegionP.swap defaultRegionP b

/-- Models POSIX lseek(fd, offset, SEEK_END) on a descriptor whose end is at
fileLen: the file position becomes fileLen + offset and is returned; the call
fails with -1 when that position would be negative.  This is the documented OS
semantics of the external primitive, not repository code. -/
def lseekEnd (fileLen offset : Int) : Int :=
  if fileLen + offset < 0 then -1 else fileLen + offset

/-- PROT_READ of sys/mman.h. -/
def PROT_READ : Nat := 1

/-- PROT_WRITE of sys/mman.h. -/
def PROT_WRITE : Nat := 2

/-- MAP_SHARED of sys/mman.h. -/
def MAP_SHARED : Nat := 1

/-- MAP_PRIVATE of sys/mman.h. -/
def MAP_PRIVATE : Nat := 2

/-- The switch over mode in the POSIX constructor (lines 412-435): protection
and flags for the recognised modes, none for the default branch (mode_error).
The C++ bitwise ors combine disjoint bits, so they are written as sums. -/
def posixProtFlags : ModeT → Option (Nat × Nat)
  | .read_only => some (PROT_READ, MAP_SHARED)
  | .read_write => some (PROT_WRITE + PROT_READ, MAP_SHARED)
  | .copy_on_write => some (PROT_READ, MAP_PRIVATE)
  | .other _ => none

/-- mapped_region::flush, POSIX build (lines 480-492).  msyncRes is the oracle
for the msync result; the Bool is the value flush returns and the list the OS
calls it issues.  The function is total: flush never throws. -/
def RegionP.flush (msyncRes : Int → Nat → Int) (r : RegionP)
    (mapping_offset numbytes : Nat) : Bool × List OsCall :=
  if mapping_offset ≥ r.m_size ∨ (mapping_offset + numbytes) % 2 ^ 64 > r.m_size then
    (false, [])
  else
    let numbytes1 := if numbytes = 0 then r.m_size - mapping_offset else numbytes
    (msyncRes (r.m_base + (mapping_offset : Int)) numbytes1 == 0,
     [.msync (r.m_base + (mapping_offset : Int)) numbytes1])

/-- mapped_region::priv_close, POSIX build (lines 494-501): when mapped, flush
the whole region (result ignored), munmap the underlying mapping at
m_base - m_extra_offset with length m_size + m_extra_offset, and reset m_base
to MAP_FAILED.  Returns no error: teardown failures are suppressed. -/
def RegionP.priv_close (msyncRes : Int → Nat → Int) (r : RegionP) : RegionP × List OsCall :=
  if r.m_base ≠ mapFailed then
    ({ r with m_base := mapFailed },
     (r.flush msyncRes 0 0).2 ++
       [.munmap (r.m_base - r.m_extra_offset) (toU64 ((r.m_size : Int) + r.m_extra_offset))])
  else (r, [])

/-- The POSIX constructor's environment: length of the backing object, the
cached page size (sysconf _SC_PAGESIZE), and oracles for the mmap result
(arguments: address hint, length, file offset) and the msync result. -/
structure PosixEnv where
  fileLen : Int
  pageSize : Nat
  mmapRes : Int → Nat → Int → Int
  msyncRes : Int → Nat → Int

/-- Outcome of a constructor run: the thrown error (none = success), the member
state at return or at the throw, and the OS-call trace. -/
structure PosixOut where
  res : Option IpcErr
  st : RegionP
  tr : List OsCall
deriving Repr, DecidableEq

/-- The size == 0 resolution block of the POSIX constructor (lines 386-406):
lseek(fd, offset, SEEK_END), the -1 failure check, the offset >= filesize
check, filesize -= offset, and the size_t round-trip representability check. -/
def posixSizeStep (fileLen : Int) (fd : Int) (offset : Int) (size0 : Nat) :
    (Option IpcErr × Nat) × List OsCall :=
  if size0 = 0 then
    let filesize := lseekEnd fileLen offset
    let tr := [OsCall.lseek fd offset filesize]
    if filesize = -1 then ((some .system_error, 0), tr)
    else if offset ≥ filesize then ((some .size_error, 0), tr)
    else
      let filesize1 := filesize - offset
      let size1 := toU64 filesize1
      if i64ofU64 size1 ≠ filesize1 then ((some .size_error, 0), tr)
      else ((none, size1), tr)
  else ((none, size0), [])

/-- The mapping constructor, POSIX build (lines 377-478), step for step:
size==0 resolution through posixSizeStep; the mode switch;
m_extra_offset = offset - (offset / page_size) * page_size computed, as in the
C++, in unsigned 64-bit arithmetic (offset_t / size_t promotes to size_t);
storing the user values; shifting a nonnull address hint back by the extra
offset; the mmap call with length (size_t)(m_extra_offset + m_size) and file
offset offset - m_extra_offset; priv_close and throw on mmap failure; the user
base m_base = raw + m_extra_offset; and the fixed-address check, which tears
the mapping down through priv_close before throwing. -/
def posixConstruct (env : PosixEnv) (fd : Int) (mode : ModeT) (offset : Int)
    (size0 : Nat) (address : Int) : PosixOut :=
  let r0 : RegionP := defaultRegionP
  match posixSizeStep env.fileLen fd offset size0 with
  | ((some e, _), tr) => ⟨some e, r0, tr⟩
  | ((none, size), tr0) =>
    match posixProtFlags mode with
    | none => ⟨some .mode_error, r0, tr0⟩
    | some (prot, flags) =>
      let uoff : Nat := toU64 offset
      let extra : Int := i64ofU64 (uoff - uoff / env.pageSize * env.pageSize)
      let r1 : RegionP :=
        { m_base := mapFailed, m_size := size, m_offset := offset, m_extra_offset := extra }
      let address1 : Int := if address ≠ 0 then address - extra else address
      let mapLen : Nat := toU64 (extra + (size : Int))
      let foff : Int := offset - extra
      let raw : Int := env.mmapRes address1 mapLen foff
      let tr1 := tr0 ++ [OsCall.mmap address1 mapLen prot flags fd foff raw]
      if raw = mapFailed then
        let pc := RegionP.priv_close env.msyncRes { r1 with m_base := raw }
        ⟨some .system_error, pc.1, tr1 ++ pc.2⟩
      else
        let r2 : RegionP := { r1 with m_base := raw + extra }
        if address1 ≠ 0 ∧ raw ≠ address1 then
          let pc := RegionP.priv_close env.msyncRes r2
          ⟨some .system_error, pc.1, tr1 ++ pc.2⟩
        else ⟨none, r2, tr1⟩

/-- PAGE_READONLY.  Modelled from the Win32 API: win32_api.hpp is not part of
this snapshot's sources; winapi::page_readonly wraps the PAGE_READONLY
protection constant 0x02. -/
def page_readonly : Nat := 2

/-- PAGE_READWRITE, 0x04 (modelled from the Win32 API as above). -/
def page_readwrite : Nat := 4

/-- PAGE_WRITECOPY, 0x08 (modelled from the Win32 API as above). -/
def page_writecopy : Nat := 8

/-- FILE_MAP_READ, 0x04 (modelled from the Win32 API as above). -/
def file_map_read : Nat := 4

/-- FILE_MAP_WRITE, 0x02 (modelled from the Win32 API as above). -/
def file_map_write : Nat := 2

/-- FILE_MAP_COPY, 0x01 (modelled from the Win32 API as above). -/
def file_map_copy : Nat := 1

/-- The switch over mode in the Windows constructor (lines 205-225): the page
protection and the map access for the recognised modes, none for the default
branch (mode_error). -/
def winAccess : ModeT → Option (Nat × Nat)
  | .read_only => some (page_readonly, file_map_read)
  | .read_write => some (page_readwrite, file_map_write)
  | .copy_on_write => some (page_writecopy, file_map_copy)
  | .other _ => none

/-- mapped_region::flush, Windows build (lines 317-339): unmapped regions
return false; out-of-range requests return false; otherwise the numbytes==0
request is resolved to the rest of the region (after a dead re-zeroing branch
for m_size==0) and flush_view_of_file is called.  The source returns
0 == flush_view_of_file(...), reproduced literally here.  The function is
total: flush never throws. -/
def RegionW.flush (flushRes : Int → Nat → Int) (w : RegionW)
    (mapping_offset numbytes : Nat) : Bool × List OsCall :=
  if w.m_base = 0 then (false, [])
  else if mapping_offset ≥ w.m_size ∨ (mapping_offset + numbytes) % 2 ^ 32 > w.m_size then
    (false, [])
  else
    let numbytes1 :=
      if w.m_size = 0 then 0
      else if numbytes = 0 then w.m_size - mapping_offset
      else numbytes
    (flushRes (w.m_base + (mapping_offset : Int)) numbytes1 == 0,
     [.flushViewOfFile (w.m_base + (mapping_offset : Int)) numbytes1])

/-- mapped_region::priv_close, Windows build (lines 341-354): when mapped,
flush the whole region (result ignored), unmap the view at
m_base - m_extra_offset and zero m_base; then, when m_file_mapping_hnd is
nonzero, close it and zero it.  Returns no error: teardown failures are
suppressed. -/
def RegionW.priv_close (flushRes : Int → Nat → Int) (w : RegionW) : RegionW × List OsCall :=
  let step1 : RegionW × List OsCall :=
    if w.m_base ≠ 0 then
      ({ w with m_base := 0 },
       (w.flush flushRes 0 0).2 ++ [.unmapViewOfFile (w.m_base - w.m_extra_offset)])
    else (w, [])
  if step1.1.m_file_mapping_hnd ≠ 0 then
    ({ step1.1 with m_file_mapping_hnd := 0 },
     step1.2 ++ [.closeHandle step1.1.m_file_mapping_hnd])
  else step1

/-- The Windows constructor's environment: the get_file_size result, the
allocation granularity (dwAllocationGranularity), and oracles for the results
of create_file_mapping (0 = failure), duplicate_current_process_handle
(none = failure), map_view_of_file_ex (arguments: map access, high and low
file offset, length, address hint; 0 = failure) and flush_view_of_file. -/
structure WinEnv where
  getFileSizeOk : Bool
  fileSize : Int
  granularity : Nat
  createRes : Int
  dupRes : Option Int
  mapViewRes : Nat → Nat → Nat → Nat → Int → Int
  flushRes : Int → Nat → Int

/-- Outcome of a Windows constructor run: thrown error (none = success), the
member state at return or at the throw, and the OS-call trace. -/
structure WinOut where
  res : Option IpcErr
  st : RegionW
  tr : List OsCall
deriving Repr, DecidableEq

/-- The non-shared-memory prefix of the Windows constructor: size == 0
resolution via get_file_size (lines 229-240), with the size_error check
total_size > (__int64)((size_t)(-1)) (2^32 - 1 for the 32-bit size_t modelled
here) and size = (size_t)(total_size - offset), followed by
create_file_mapping (lines 243-252; on failure the C++ calls priv_close,
a no-op on the still-default members, then throws).  Returns
(error?, resolved size, native mapping handle) and the trace. -/
def winSizeCreateStep (env : WinEnv) (is_shm : Bool) (file_map_access : Nat)
    (offset : Int) (size0 : Nat) : (Option IpcErr × Nat × Int) × List OsCall :=
  if is_shm = false then
    let sz : (Option IpcErr × Nat) × List OsCall :=
      if size0 = 0 then
        if env.getFileSizeOk = false then
          ((some .system_error, 0), [.getFileSize false env.fileSize])
        else if env.fileSize > (2 ^ 32 - 1 : Int) then
          ((some .size_error, 0), [.getFileSize true env.fileSize])
        else ((none, toU32 (env.fileSize - offset)), [.getFileSize true env.fileSize])
      else ((none, size0), [])
    match sz with
    | ((some e, _), tr) => ((some e, 0, 0), tr)
    | ((none, size), tr) =>
      let native := env.createRes
      let tr1 := tr ++ [OsCall.createFileMapping file_map_access native]
      if native = 0 then ((some .system_error, 0, 0), tr1)
      else ((none, size, native), tr1)
  else ((none, size0, 0), [])

/-- The shared-memory handle duplication of the Windows constructor
(lines 281-290): duplicate_current_process_handle into m_file_mapping_hnd,
with priv_close and throw on failure; for files the members and the native
handle pass through unchanged.  Returns (error?, members, native handle). -/
def winDupStep (env : WinEnv) (is_shm : Bool) (handle : Int) (r1 : RegionW) (native0 : Int) :
    (Option IpcErr × RegionW × Int) × List OsCall :=
  if is_shm then
    match env.dupRes with
    | none =>
      let pc := RegionW.priv_close env.flushRes r1
      ((some .system_error, pc.1, 0), [OsCall.duplicateHandle handle none] ++ pc.2)
    | some d =>
      (((none : Option IpcErr), { r1 with m_file_mapping_hnd := d }, d),
       [OsCall.duplicateHandle handle (some d)])
  else ((none, r1, native0), [])

/-- The member values the Windows constructor stores before mapping
(lines 266-274): m_extra_offset = offset - (offset / granularity) * granularity
in signed __int64 arithmetic, the user offset, and the resolved size. -/
def winStoreMembers (g : Nat) (offset : Int) (size : Nat) : RegionW :=
  { defaultRegionW with
    m_extra_offset := offset - Int.tdiv offset (g : Int) * (g : Int),
    m_offset := offset,
    m_size := size }

/-- The length the Windows constructor hands to map_view_of_file_ex: the
m_size ? (size_t)(m_extra_offset + m_size) : 0 ternary at line 298. -/
def winMapLen (r2 : RegionW) : Nat :=
  if r2.m_size ≠ 0 then toU32 (r2.m_extra_offset + (r2.m_size : Int)) else 0

/-- The final stage of the Windows constructor (lines 292-315): the
map_view_of_file_ex call, the unconditional close of the native mapping handle
for files, the null-base check with priv_close and throw, and the final user
base adjustment m_base = raw + m_extra_offset. -/
def winMapStep (env : WinEnv) (is_shm : Bool) (map_access foffset_high foffset_low : Nat)
    (r2 : RegionW) (native : Int) (address1 : Int) (trPre : List OsCall) : WinOut :=
  let raw : Int := env.mapViewRes map_access foffset_high foffset_low (winMapLen r2) address1
  let tr3 := trPre ++
    [OsCall.mapViewOfFileEx map_access foffset_high foffset_low (winMapLen r2) address1 raw]
  let r3 : RegionW := { r2 with m_base := raw }
  let tr4 := if is_shm = false then tr3 ++ [OsCall.closeHandle native] else tr3
  if raw = 0 then
    let pc := RegionW.priv_close env.flushRes r3
    ⟨some .system_error, pc.1, tr4 ++ pc.2⟩
  else
    ⟨none, { r3 with m_base := raw + r3.m_extra_offset }, tr4⟩

/-- The mapping constructor, Windows build (lines 188-315), step for step: the
mode switch first; then, for non-shared-memory handles, size resolution and
create_file_mapping (winSizeCreateStep); the granularity split of the offset
into (foffset_high, foffset_low), with
m_extra_offset = offset - (offset / granularity) * granularity computed in
signed __int64 arithmetic; storing the user values; shifting a nonnull address
hint back by the extra offset; for shared memory, duplication of the handle
into m_file_mapping_hnd (winDupStep); the map_view_of_file_ex call with length
m_size ? (size_t)(m_extra_offset + m_size) : 0; for files, the unconditional
close of the native mapping handle; priv_close and throw when the returned
base is null; and finally the user base m_base = raw + m_extra_offset. -/
def winConstruct (env : WinEnv) (is_shm : Bool) (handle : Int) (mode : ModeT)
    (offset : Int) (size0 : Nat) (address : Int) : WinOut :=
  let r0 : RegionW := defaultRegionW
  match winAccess mode with
  | none => ⟨some .mode_error, r0, []⟩
  | some (file_map_access, map_access) =>
    match winSizeCreateStep env is_shm file_map_access offset size0 with
    | ((some e, _, _), tr) => ⟨some e, r0, tr⟩
    | ((none, size, native0), tr1) =>
      let g : Nat := env.granularity
      let q : Int := Int.tdiv offset (g : Int)
      let alignedQG : Int := q * (g : Int)
      let foffset_low : Nat := toU32 q * g % 2 ^ 32
      let foffset_high : Nat := toU32 (ashr32 alignedQG)
      let r1 : RegionW := winStoreMembers g offset size
      let address1 : Int := if address ≠ 0 then address - r1.m_extra_offset else address
      match winDupStep env is_shm handle r1 native0 with
      | ((some e, rfail, _), tr2) => ⟨some e, rfail, tr1 ++ tr2⟩
      | ((none, r2, native), tr2) =>
        winMapStep env is_shm map_access foffset_high foffset_low r2 native address1
          (tr1 ++ tr2)

/-- Resources a constructor run can acquire from the OS: a POSIX mapping
(address and length), a Windows view (address), or a Windows handle. -/
inductive Res where
  | pmap (addr : Int) (len : Nat)
  | wmap (addr : Int)
  | handle (h : Int)
deriving Repr, DecidableEq

/-- Resources a single OS call acquires (successful mmap, create_file_mapping,
duplicate_current_process_handle, map_view_of_file_ex). -/
def acqOf : OsCall → List Res
  | .mmap _ len _ _ _ _ res => if res ≠ mapFailed then [.pmap res len] else []
  | .createFileMapping _ res => if res ≠ 0 then [.handle res] else []
  | .duplicateHandle _ r => match r with | some d => [.handle d] | none => []
  | .mapViewOfFileEx _ _ _ _ _ res => if res ≠ 0 then [.wmap res] else []
  | _ => []

/-- Resources a single OS call releases. -/
def relOf : OsCall → List Res
  | .munmap a len => [.pmap a len]
  | .closeHandle h => [.handle h]
  | .unmapViewOfFile a => [.wmap a]
  | _ => []

/-- Fold one OS call into the currently-open resource list. -/
def stepRes (acc : List Res) (c : OsCall) : List Res :=
  (relOf c).foldl List.erase (acc ++ acqOf c)

/-- Run a trace over an open-resource list. -/
def runTrace (acc : List Res) (tr : List OsCall) : List Res :=
  tr.foldl stepRes acc

/-- The OS resources still held after a trace: acquisitions minus releases. -/
def openAfter (tr : List OsCall) : List Res := runTrace [] tr

/-- Whether a trace contains a mapping-related OS call (the calls the mode
check is required to precede): mmap, map_view_of_file_ex,
create_file_mapping or handle duplication. -/
def hasMapCall (tr : List OsCall) : Bool :=
  tr.any fun c =>
    match c with
    | .mmap _ _ _ _ _ _ _ => true
    | .mapViewOfFileEx _ _ _ _ _ _ => true
    | .createFileMapping _ _ => true
    | .duplicateHandle _ _ => true
    | _ => false

/-- The (result, length) pairs of the mmap calls of a trace. -/
def pmapCalls : List OsCall → List (Int × Nat)
  | [] => []
  | .mmap _ len _ _ _ _ res :: l => (res, len) :: pmapCalls l
  | _ :: l => pmapCalls l

/-- The (result, length) pairs of the map_view_of_file_ex calls of a trace. -/
def wmapCalls : List OsCall → List (Int × Nat)
  | [] => []
  | .mapViewOfFileEx _ _ _ len _ res :: l => (res, len) :: wmapCalls l
  | _ :: l => wmapCalls l

/-- C1: the claim fails on the code and the spec is the evident intent.  The
spec requires a size == 0 construction to resolve to totalLength - offset (a
500-byte object at offset 200 gives 300) and an offset at or beyond the
object's length to fail with size_error.  The POSIX constructor calls
lseek(fd, offset, SEEK_END), which positions at totalLength + offset, so the
subsequent filesize -= offset cancels the offset: the resolved size is the
whole object length 500, and the offset >= filesize guard (which only makes
sense against the total length, showing the intent) never fires for a positive
length, so offset 600 on a 500-byte object raises no size_error.  The Windows
build resolves 300 exactly as the spec says, but also lacks the size_error
check: at offset 600 the size subtraction wraps instead of failing. -/
theorem c1_size_zero_resolution_bug :
    (posixConstruct ⟨500, 4096, fun _ _ _ => 8192, fun _ _ => 0⟩ 3 .read_write 200 0 0).res
        = none ∧
    (posixConstruct ⟨500, 4096, fun _ _ _ => 8192, fun _ _ => 0⟩ 3 .read_write 200 0 0).st.m_size
        = 500 ∧
    (posixConstruct ⟨500, 4096, fun _ _ _ => 8192, fun _ _ => 0⟩ 3 .read_write 200 0 0).st.m_size
        ≠ 300 ∧
    (posixConstruct ⟨500, 4096, fun _ _ _ => 8192, fun _ _ => 0⟩ 3 .read_write 600 0 0).res
        ≠ some .size_error ∧
    (winConstruct ⟨true, 500, 65536, 77, none, fun _ _ _ _ _ => 131072, fun _ _ => 0⟩
        false 3 .read_write 200 0 0).st.m_size = 300 ∧
    (winConstruct ⟨true, 500, 65536, 77, none, fun _ _ _ _ _ => 131072, fun _ _ => 0⟩
        false 3 .read_write 600 0 0).res ≠ some .size_error := by
  decide

/-- C2 counterexample: move assignment is implemented as a plain swap with the
target, not as a swap with a freshly default-constructed instance, so after
a = move(b) with a mapped, the moved-from b holds a's old mapping and is not
in the unmapped state. -/
theorem c2_move_assign_source_not_unmapped :
    ((moveAssignP ⟨4096, 100, 10, 10⟩ defaultRegionP).2).m_base ≠ mapFailed := by
  decide

/-- C2 (amended): after a = move(b), a holds exactly the state b held before
the move, and b holds the state a held before (the fields are exchanged); in
particular b is unmapped exactly when a was.  Ownership is exchanged, never
duplicated, so the teardown OS calls of the two instances after the move are
exactly the teardown OS calls of the two instances before it: no mapping is
unmapped twice. -/
theorem c2_move_assign_swaps :
    (∀ a b : RegionP, moveAssignP a b = (b, a)) ∧
    (∀ a b : RegionW, moveAssignW a b = (b, a)) ∧
    (∀ (m : Int → Nat → Int) (a b : RegionP),
      (RegionP.priv_close m (moveAssignP a b).1).2 ++ (RegionP.priv_close m (moveAssignP a b).2).2
        = (RegionP.priv_close m b).2 ++ (RegionP.priv_close m a).2) ∧
    (∀ (f : Int → Nat → Int) (a b : RegionW),
      (RegionW.priv_close f (moveAssignW a b).1).2 ++ (RegionW.priv_close f (moveAssignW a b).2).2
        = (RegionW.priv_close f b).2 ++ (RegionW.priv_close f a).2) :=
  ⟨fun _ _ => rfl, fun _ _ => rfl, fun _ _ _ => rfl, fun _ _ _ => rfl⟩

/-- C3 counterexample: flush on an unmapped (default-constructed) instance
returns false, the failure indicator, in both builds - not the success
indicator the claim states (the Windows build checks m_base == 0 explicitly
and returns false; the POSIX build falls into the mapping_offset >= m_size
guard because m_size is 0). -/
theorem c3_flush_unmapped_returns_failure :
    (RegionW.flush (fun _ _ => 0) defaultRegionW 0 0).1 = false ∧
    (RegionP.flush (fun _ _ => 0) defaultRegionP 0 0).1 = false := by
  decide

/-- C4 counterexample: constructing with an invalid mode and size == 0 on the
POSIX build issues the lseek size query (an OS call) before the mode switch
throws mode_error, contradicting the claim that the failure precedes any OS
call and in particular any size query. -/
theorem c4_os_call_before_mode_error :
    (posixConstruct ⟨500, 4096, fun _ _ _ => 8192, fun _ _ => 0⟩ 3 (.other 9) 0 0 0).res
        = some .mode_error ∧
    (posixConstruct ⟨500, 4096, fun _ _ _ => 8192, fun _ _ => 0⟩ 3 (.other 9) 0 0 0).tr
        = [.lseek 3 0 500] := by
  decide

/-- C6 counterexample: a successful Windows shared-memory construction with
size 0 and offset 5 stores extraOffset 5 but hands length 0, not
extraOffset + size = 5, to map_view_of_file_ex (the m_size ? ... : 0 ternary at
line 298), refuting the claim that the OS mapping length is always
extraOffset + size and never less. -/
theorem c6_win_shm_zero_size_maps_whole :
    (winConstruct ⟨true, 0, 65536, 77, some 9, fun _ _ _ _ _ => 131072, fun _ _ => 0⟩
        true 9 .read_write 5 0 0).res = none ∧
    (winConstruct ⟨true, 0, 65536, 77, some 9, fun _ _ _ _ _ => 131072, fun _ _ => 0⟩
        true 9 .read_write 5 0 0).st.m_extra_offset = 5 ∧
    (winConstruct ⟨true, 0, 65536, 77, some 9, fun _ _ _ _ _ => 131072, fun _ _ => 0⟩
        true 9 .read_write 5 0 0).st.m_size = 0 ∧
    wmapCalls (winConstruct ⟨true, 0, 65536, 77, some 9, fun _ _ _ _ _ => 131072, fun _ _ => 0⟩
        true 9 .read_write 5 0 0).tr = [(131072, 0)] ∧
    (0 : Nat) ≠ 5 := by
  decide

/-- C7 counterexample: a successful Windows construction at the (signed)
requested offset -5 stores m_extra_offset = -5, violating both
0 <= extraOffset and extraOffset = offset mod pageGranularity (which is 65531
for granularity 65536): the Windows build computes the extra offset with
truncating signed __int64 division, which is negative for negative offsets. -/
theorem c7_negative_offset_extra_offset :
    (winConstruct ⟨true, 0, 65536, 77, some 9, fun _ _ _ _ _ => 131072, fun _ _ => 0⟩
        true 9 .read_write (-5) 100 0).res = none ∧
    (winConstruct ⟨true, 0, 65536, 77, some 9, fun _ _ _ _ _ => 131072, fun _ _ => 0⟩
        true 9 .read_write (-5) 100 0).st.m_extra_offset = -5 ∧
    ¬ (0 ≤ (winConstruct ⟨true, 0, 65536, 77, some 9, fun _ _ _ _ _ => 131072, fun _ _ => 0⟩
        true 9 .read_write (-5) 100 0).st.m_extra_offset) := by
  decide

/-- C10 counterexample: the bounds validation adds mapping_offset and numbytes
in size_t arithmetic, which wraps: on a mapped 100-byte region,
flush(50, 2^64 - 10) passes validation ((50 + 2^64 - 10) mod 2^64 = 40 <= 100)
and reaches msync with a byte count of 2^64 - 10, even though
mapping_offset + resolved exceeds the region size. -/
theorem c10_flush_overflow_escapes_bounds :
    (RegionP.flush (fun _ _ => 0) ⟨4096, 100, 0, 0⟩ 50 (2 ^ 64 - 10)).2
        = [.msync 4146 (2 ^ 64 - 10)] ∧
    ¬ (50 + (2 ^ 64 - 10) ≤ 100) := by
  decide

/-- C3 (amended): flush on an unmapped instance returns the failure indicator
false - the failure the code chose deliberately, not the trivial success the
claim states - and flush with an out-of-bounds sub-range also returns false;
in both cases no OS call is issued.  flush is a total function into a Bool
(and the trace of calls it made), so it never throws. -/
theorem c3_flush_failure_paths (f : Int → Nat → Int) (r : RegionP) (w : RegionW) (mo nb : Nat) :
    RegionP.flush f defaultRegionP mo nb = (false, []) ∧
    RegionW.flush f defaultRegionW mo nb = (false, []) ∧
    (w.m_base = 0 → RegionW.flush f w mo nb = (false, [])) ∧
    (mo ≥ r.m_size ∨ (mo + nb) % 2 ^ 64 > r.m_size → RegionP.flush f r mo nb = (false, [])) ∧
    (mo ≥ w.m_size ∨ (mo + nb) % 2 ^ 32 > w.m_size → RegionW.flush f w mo nb = (false, [])) := by
  refine ⟨?_, ?_, ?_, ?_, ?_⟩
  · simp [RegionP.flush, defaultRegionP]
  · simp [RegionW.flush, defaultRegionW, invalid_file]
  · intro h
    unfold RegionW.flush
    rw [if_pos h]
  · intro h
    unfold RegionP.flush
    rw [if_pos h]
  · intro h
    unfold RegionW.flush
    by_cases hb : w.m_base = 0
    · rw [if_pos hb]
    · rw [if_neg hb, if_pos h]

/-- C3 witness: the out-of-bounds conjuncts of c3_flush_failure_paths applied
to a mapped 100-byte region at mapping_offset 100 (POSIX) and to a mapped
100-byte region with mapping_offset 40, numbytes 70 (Windows). -/
theorem c3_flush_failure_paths_witness :
    RegionP.flush (fun _ _ => 0) ⟨4096, 100, 0, 0⟩ 100 0 = (false, []) ∧
    RegionW.flush (fun _ _ => 0) ⟨4096, 100, 0, 0, 0⟩ 40 70 = (false, []) :=
  ⟨(c3_flush_failure_paths (fun _ _ => 0) ⟨4096, 100, 0, 0⟩ ⟨4096, 100, 0, 0, 0⟩ 100 0).2.2.2.1
      (Or.inl (by decide)),
   (c3_flush_failure_paths (fun _ _ => 0) ⟨4096, 100, 0, 0⟩ ⟨4096, 100, 0, 0, 0⟩ 40 70).2.2.2.2
      (Or.inr (by decide))⟩

/-- C10 (amended): provided mapping_offset + numbytes does not overflow size_t
(without that proviso the size_t addition in the guard wraps, see the
counterexample), whenever flush passes its validation and issues the OS flush
call, the region satisfies 0 < size and mapping_offset < size, the resolved
byte count (numbytes, or size - mapping_offset when numbytes == 0) is positive,
the flushed range lies inside the user-visible region, and on the Windows
build the branch re-zeroing numbytes for m_size == 0 is not taken: the call
carries exactly the standard resolved count. -/
theorem c10_flush_reaches_os_in_bounds (m f : Int → Nat → Int) (r : RegionP) (w : RegionW)
    (po pn wo wn : Nat) (hp : po + pn < 2 ^ 64) (hw : wo + wn < 2 ^ 32) :
    ((RegionP.flush m r po pn).2 ≠ [] →
      0 < r.m_size ∧ po < r.m_size ∧
      0 < (if pn = 0 then r.m_size - po else pn) ∧
      po + (if pn = 0 then r.m_size - po else pn) ≤ r.m_size ∧
      (RegionP.flush m r po pn).2
        = [.msync (r.m_base + (po : Int)) (if pn = 0 then r.m_size - po else pn)]) ∧
    ((RegionW.flush f w wo wn).2 ≠ [] →
      0 < w.m_size ∧ wo < w.m_size ∧
      0 < (if wn = 0 then w.m_size - wo else wn) ∧
      wo + (if wn = 0 then w.m_size - wo else wn) ≤ w.m_size ∧
      (RegionW.flush f w wo wn).2
        = [.flushViewOfFile (w.m_base + (wo : Int)) (if wn = 0 then w.m_size - wo else wn)]) := by
  constructor
  · intro hne
    unfold RegionP.flush at hne ⊢
    by_cases hg : po ≥ r.m_size ∨ (po + pn) % 2 ^ 64 > r.m_size
    · rw [if_pos hg] at hne
      exact absurd rfl hne
    · rw [if_neg hg]
      push_neg at hg
      obtain ⟨h1, h2⟩ := hg
      rw [Nat.mod_eq_of_lt hp] at h2
      refine ⟨by omega, h1, ?_, ?_, rfl⟩
      · split <;> omega
      · split <;> omega
  · intro hne
    unfold RegionW.flush at hne ⊢
    by_cases hb : w.m_base = 0
    · rw [if_pos hb] at hne
      exact absurd rfl hne
    · rw [if_neg hb] at hne ⊢
      by_cases hg : wo ≥ w.m_size ∨ (wo + wn) % 2 ^ 32 > w.m_size
      · rw [if_pos hg] at hne
        exact absurd rfl hne
      · rw [if_neg hg]
        push_neg at hg
        obtain ⟨h1, h2⟩ := hg
        rw [Nat.mod_eq_of_lt hw] at h2
        have hsz : ¬ w.m_size = 0 := by omega
        rw [if_neg hsz]
        refine ⟨by omega, h1, ?_, ?_, rfl⟩
        · split <;> omega
        · split <;> omega

/-- C10 witness: c10_flush_reaches_os_in_bounds applied to a mapped 100-byte
POSIX region with flush(10, 20): the msync call covers bytes [10, 30). -/
theorem c10_flush_reaches_os_in_bounds_witness :
    0 < (100 : Nat) ∧ 10 < (100 : Nat) ∧ 0 < (20 : Nat) ∧ 10 + (20 : Nat) ≤ 100 ∧
    (RegionP.flush (fun _ _ => 0) ⟨4096, 100, 0, 0⟩ 10 20).2 = [.msync 4106 20] :=
  (c10_flush_reaches_os_in_bounds (fun _ _ => 0) (fun _ _ => 0) ⟨4096, 100, 0, 0⟩
      ⟨4096, 100, 0, 0, 9⟩ 10 20 10 20 (by decide) (by decide)).1 (by decide)

/-- Shape facts about the size resolution step: its trace is empty (explicit
size) or exactly the lseek query; its failures are system_error or size_error;
and an explicit nonzero size passes through untouched with no OS call. -/
theorem posixSizeStep_cases (L fd off : Int) (s0 : Nat) :
    ((posixSizeStep L fd off s0).2 = [] ∨
      (posixSizeStep L fd off s0).2 = [.lseek fd off (lseekEnd L off)]) ∧
    ((posixSizeStep L fd off s0).1.1 = none ∨
      (posixSizeStep L fd off s0).1.1 = some .system_error ∨
      (posixSizeStep L fd off s0).1.1 = some .size_error) ∧
    (s0 ≠ 0 → posixSizeStep L fd off s0 = ((none, s0), [])) := by
  unfold posixSizeStep
  by_cases h : s0 = 0
  · rw [if_pos h]
    dsimp only
    refine ⟨?_, ?_, fun hn => absurd h hn⟩
    · right
      split
      · rfl
      · split
        · rfl
        · split
          · rfl
          · rfl
    · split
      · right; left; rfl
      · split
        · right; right; rfl
        · split
          · right; right; rfl
          · left; rfl
  · rw [if_neg h]
    exact ⟨Or.inl rfl, Or.inl rfl, fun _ => rfl⟩

/-- C4 (amended): construction with an unrecognised mode always fails and never
issues a mapping-establishing OS call.  On the Windows build the mode switch
runs first, so the failure is mode_error with an empty OS-call trace.  On the
POSIX build the failure is mode_error with an empty trace whenever size != 0;
when size == 0, however, the lseek size query is issued before the mode switch
(and its own failure may preempt the mode_error as a system or size error),
contrary to the claim - but still no mapping call is ever issued. -/
theorem c4_invalid_mode (penv : PosixEnv) (wenv : WinEnv) (fd sh : Int) (is_shm : Bool)
    (n : Nat) (offset : Int) (size0 : Nat) (address : Int) :
    winConstruct wenv is_shm sh (.other n) offset size0 address
      = ⟨some .mode_error, defaultRegionW, []⟩ ∧
    hasMapCall (posixConstruct penv fd (.other n) offset size0 address).tr = false ∧
    (posixConstruct penv fd (.other n) offset size0 address).res ≠ none ∧
    (size0 ≠ 0 → posixConstruct penv fd (.other n) offset size0 address
      = ⟨some .mode_error, defaultRegionP, []⟩) := by
  obtain ⟨htr, herr, hnz⟩ := posixSizeStep_cases penv.fileLen fd offset size0
  rcases hps : posixSizeStep penv.fileLen fd offset size0 with ⟨⟨oe, sz⟩, tr⟩
  rw [hps] at htr herr hnz
  refine ⟨rfl, ?_, ?_, ?_⟩
  · unfold posixConstruct
    rw [hps]
    cases oe with
    | some e =>
      show hasMapCall tr = false
      rcases htr with h | h <;> dsimp only at h <;> subst h <;> simp [hasMapCall]
    | none =>
      show hasMapCall tr = false
      rcases htr with h | h <;> dsimp only at h <;> subst h <;> simp [hasMapCall]
  · unfold posixConstruct
    rw [hps]
    cases oe with
    | some e => exact Option.noConfusion
    | none => exact Option.noConfusion
  · intro hs0
    have hz := hnz hs0
    obtain ⟨h1, h2⟩ := Prod.mk.injEq .. ▸ hz
    obtain ⟨h3, h4⟩ := Prod.mk.injEq .. ▸ h1
    unfold posixConstruct
    rw [hps, h3, h2]
    rfl

/-- C4 witness: c4_invalid_mode applied with explicit size 100 and mode value
9: both builds fail with mode_error and an empty OS-call trace. -/
theorem c4_invalid_mode_witness :
    winConstruct ⟨true, 500, 65536, 77, none, fun _ _ _ _ _ => 131072, fun _ _ => 0⟩
        false 3 (.other 9) 0 100 0 = ⟨some .mode_error, defaultRegionW, []⟩ ∧
    posixConstruct ⟨500, 4096, fun _ _ _ => 8192, fun _ _ => 0⟩ 3 (.other 9) 0 100 0
      = ⟨some .mode_error, defaultRegionP, []⟩ :=
  ⟨(c4_invalid_mode ⟨500, 4096, fun _ _ _ => 8192, fun _ _ => 0⟩
      ⟨true, 500, 65536, 77, none, fun _ _ _ _ _ => 131072, fun _ _ => 0⟩
      3 3 false 9 0 100 0).1,
   (c4_invalid_mode ⟨500, 4096, fun _ _ _ => 8192, fun _ _ => 0⟩
      ⟨true, 500, 65536, 77, none, fun _ _ _ _ _ => 131072, fun _ _ => 0⟩
      3 3 false 9 0 100 0).2.2.2 (by decide)⟩

theorem pmapCalls_append (a b : List OsCall) :
    pmapCalls (a ++ b) = pmapCalls a ++ pmapCalls b := by
  induction a with
  | nil => rfl
  | cons c a ih => cases c <;> simp [pmapCalls, ih]

theorem wmapCalls_append (a b : List OsCall) :
    wmapCalls (a ++ b) = wmapCalls a ++ wmapCalls b := by
  induction a with
  | nil => rfl
  | cons c a ih => cases c <;> simp [wmapCalls, ih]

/-- Success characterisation of the POSIX constructor: on success the stored
members are the user offset, the resolved size of the size step, and the
extra offset computed from offset and page size, and the trace contains
exactly one mmap call, whose result is the stored base minus the extra offset
and whose length is (size_t)(extra offset + size). -/
theorem posixConstruct_success (env : PosixEnv) (fd : Int) (mode : ModeT) (offset : Int)
    (size0 : Nat) (address : Int)
    (h : (posixConstruct env fd mode offset size0 address).res = none) :
    (posixConstruct env fd mode offset size0 address).st.m_size
      = (posixSizeStep env.fileLen fd offset size0).1.2 ∧
    (posixConstruct env fd mode offset size0 address).st.m_offset = offset ∧
    (posixConstruct env fd mode offset size0 address).st.m_extra_offset
      = i64ofU64 (toU64 offset - toU64 offset / env.pageSize * env.pageSize) ∧
    pmapCalls (posixConstruct env fd mode offset size0 address).tr
      = [((posixConstruct env fd mode offset size0 address).st.m_base
            - (posixConstruct env fd mode offset size0 address).st.m_extra_offset,
          toU64 ((posixConstruct env fd mode offset size0 address).st.m_extra_offset
            + ((posixConstruct env fd mode offset size0 address).st.m_size : Int)))] := by
  obtain ⟨htr, -, -⟩ := posixSizeStep_cases env.fileLen fd offset size0
  rcases hps : posixSizeStep env.fileLen fd offset size0 with ⟨⟨oe, sz⟩, tr⟩
  rw [hps] at htr
  dsimp only at htr
  unfold posixConstruct at h ⊢
  rw [hps] at h ⊢
  cases oe with
  | some e => exact absurd h (by simp)
  | none =>
    dsimp only at h ⊢
    cases hpf : posixProtFlags mode with
    | none => rw [hpf] at h; exact absurd h (by simp)
    | some pf =>
      obtain ⟨prot, flags⟩ := pf
      rw [hpf] at h
      dsimp only at h ⊢
      by_cases hraw :
          env.mmapRes (if address ≠ 0 then
              address - i64ofU64 (toU64 offset - toU64 offset / env.pageSize * env.pageSize)
            else address)
            (toU64 (i64ofU64 (toU64 offset - toU64 offset / env.pageSize * env.pageSize)
              + (sz : Int)))
            (offset - i64ofU64 (toU64 offset - toU64 offset / env.pageSize * env.pageSize))
          = mapFailed
      · rw [if_pos hraw] at h
        exact absurd h (by simp)
      · rw [if_neg hraw] at h ⊢
        by_cases hfix :
            (if address ≠ 0 then
                address - i64ofU64 (toU64 offset - toU64 offset / env.pageSize * env.pageSize)
              else address) ≠ 0 ∧
            env.mmapRes (if address ≠ 0 then
                address - i64ofU64 (toU64 offset - toU64 offset / env.pageSize * env.pageSize)
              else address)
              (toU64 (i64ofU64 (toU64 offset - toU64 offset / env.pageSize * env.pageSize)
                + (sz : Int)))
              (offset - i64ofU64 (toU64 offset - toU64 offset / env.pageSize * env.pageSize))
            ≠ (if address ≠ 0 then
                address - i64ofU64 (toU64 offset - toU64 offset / env.pageSize * env.pageSize)
              else address)
        · rw [if_pos hfix] at h
          exact absurd h (by simp)
        · rw [if_neg hfix] at h ⊢
          refine ⟨rfl, rfl, rfl, ?_⟩
          rcases htr with he | he <;> subst he <;>
            simp [pmapCalls, add_sub_cancel_right]

/-- The trace of a POSIX flush is empty or a single msync call. -/
theorem flushP_tr (m : Int → Nat → Int) (r : RegionP) (mo nb : Nat) :
    (RegionP.flush m r mo nb).2 = [] ∨
    ∃ a l, (RegionP.flush m r mo nb).2 = [.msync a l] := by
  unfold RegionP.flush
  split
  · exact Or.inl rfl
  · exact Or.inr ⟨_, _, rfl⟩

/-- The trace of a Windows flush is empty or a single flush_view_of_file call. -/
theorem flushW_tr (f : Int → Nat → Int) (w : RegionW) (mo nb : Nat) :
    (RegionW.flush f w mo nb).2 = [] ∨
    ∃ a l, (RegionW.flush f w mo nb).2 = [.flushViewOfFile a l] := by
  unfold RegionW.flush
  split
  · exact Or.inl rfl
  · split
    · exact Or.inl rfl
    · exact Or.inr ⟨_, _, rfl⟩

/-- priv_close issues no map_view_of_file_ex call. -/
theorem wmapCalls_privCloseW (f : Int → Nat → Int) (w : RegionW) :
    wmapCalls (RegionW.priv_close f w).2 = [] := by
  have hf := flushW_tr f w 0 0
  unfold RegionW.priv_close
  dsimp only
  by_cases hb : w.m_base ≠ 0
  · rw [if_pos hb]
    dsimp only
    by_cases hh : w.m_file_mapping_hnd ≠ 0
    · rw [if_pos hh]
      rcases hf with h | ⟨a, l, h⟩ <;> simp [wmapCalls_append, wmapCalls, h]
    · rw [if_neg hh]
      rcases hf with h | ⟨a, l, h⟩ <;> simp [wmapCalls_append, wmapCalls, h]
  · rw [if_neg hb]
    dsimp only
    by_cases hh : w.m_file_mapping_hnd ≠ 0
    · rw [if_pos hh]
      simp [wmapCalls_append, wmapCalls]
    · rw [if_neg hh]
      simp [wmapCalls]

/-- The size/create step issues no map_view_of_file_ex call, and an explicit
nonzero size passes through it untouched on success. -/
theorem winSizeCreateStep_facts (env : WinEnv) (s : Bool) (fa : Nat) (off : Int) (s0 : Nat) :
    wmapCalls (winSizeCreateStep env s fa off s0).2 = [] ∧
    (s0 ≠ 0 → (winSizeCreateStep env s fa off s0).1.1 = none →
      (winSizeCreateStep env s fa off s0).1.2.1 = s0) := by
  unfold winSizeCreateStep
  cases s with
  | true => exact ⟨rfl, fun _ _ => rfl⟩
  | false =>
    rw [if_pos rfl]
    dsimp only
    by_cases h0 : s0 = 0
    · rw [if_pos h0]
      refine ⟨?_, fun hn _ => absurd h0 hn⟩
      by_cases hg : env.getFileSizeOk = false
      · rw [if_pos hg]
        simp [wmapCalls]
      · rw [if_neg hg]
        by_cases hbig : env.fileSize > 2 ^ 32 - 1
        · rw [if_pos hbig]
          simp [wmapCalls]
        · rw [if_neg hbig]
          dsimp only
          by_cases hc : env.createRes = 0
          · rw [if_pos hc]
            simp [wmapCalls_append, wmapCalls]
          · rw [if_neg hc]
            simp [wmapCalls_append, wmapCalls]
    · rw [if_neg h0]
      dsimp only
      by_cases hc : env.createRes = 0
      · rw [if_pos hc]
        exact ⟨by simp [wmapCalls], fun _ hnone => absurd hnone (by simp)⟩
      · rw [if_neg hc]
        exact ⟨by simp [wmapCalls], fun _ _ => rfl⟩

/-- The duplication step issues no map_view_of_file_ex call; on success it
changes no member other than m_file_mapping_hnd. -/
theorem winDupStep_facts (env : WinEnv) (s : Bool) (hdl : Int) (r1 : RegionW) (n0 : Int) :
    wmapCalls (winDupStep env s hdl r1 n0).2 = [] ∧
    ((winDupStep env s hdl r1 n0).1.1 = none →
      (winDupStep env s hdl r1 n0).1.2.1.m_base = r1.m_base ∧
      (winDupStep env s hdl r1 n0).1.2.1.m_size = r1.m_size ∧
      (winDupStep env s hdl r1 n0).1.2.1.m_offset = r1.m_offset ∧
      (winDupStep env s hdl r1 n0).1.2.1.m_extra_offset = r1.m_extra_offset) := by
  unfold winDupStep
  cases s with
  | false => exact ⟨rfl, fun _ => ⟨rfl, rfl, rfl, rfl⟩⟩
  | true =>
    dsimp only
    cases hd : env.dupRes with
    | none =>
      dsimp only
      constructor
      · show wmapCalls ([OsCall.duplicateHandle hdl none]
          ++ (RegionW.priv_close env.flushRes r1).2) = []
        simp [wmapCalls_append, wmapCalls, wmapCalls_privCloseW]
      · intro hnone
        exact absurd hnone (by simp)
    | some d => exact ⟨rfl, fun _ => ⟨rfl, rfl, rfl, rfl⟩⟩

/-- Outcome of the map-view stage on success: the returned base was nonzero,
the final members are the stage-2 members with the adjusted base, and the
trace is the prefix, the map call, and for files the close of the native
mapping handle. -/
theorem winMapStep_success (env : WinEnv) (s : Bool) (ma fh fl : Nat) (r2 : RegionW)
    (native : Int) (addr1 : Int) (trPre : List OsCall)
    (h : (winMapStep env s ma fh fl r2 native addr1 trPre).res = none) :
    env.mapViewRes ma fh fl (winMapLen r2) addr1 ≠ 0 ∧
    (winMapStep env s ma fh fl r2 native addr1 trPre).st
      = { r2 with m_base := env.mapViewRes ma fh fl (winMapLen r2) addr1
            + r2.m_extra_offset } ∧
    (winMapStep env s ma fh fl r2 native addr1 trPre).tr
      = (trPre ++ [OsCall.mapViewOfFileEx ma fh fl (winMapLen r2) addr1
          (env.mapViewRes ma fh fl (winMapLen r2) addr1)])
        ++ (if s = false then [OsCall.closeHandle native] else []) := by
  unfold winMapStep at h ⊢
  dsimp only at h ⊢
  by_cases hraw : env.mapViewRes ma fh fl (winMapLen r2) addr1 = 0
  · rw [if_pos hraw] at h
    simp at h
  · rw [if_neg hraw] at h ⊢
    refine ⟨hraw, rfl, ?_⟩
    by_cases hs : s = false
    · rw [if_pos hs, if_pos hs]
    · rw [if_neg hs, if_neg hs]
      simp

/-- Outcome of the map-view stage on failure: the returned base was zero, the
members at the throw are those left by priv_close of the zero-based region,
and the trace appends the priv_close teardown. -/
theorem winMapStep_fail (env : WinEnv) (s : Bool) (ma fh fl : Nat) (r2 : RegionW)
    (native : Int) (addr1 : Int) (trPre : List OsCall) (e : IpcErr)
    (h : (winMapStep env s ma fh fl r2 native addr1 trPre).res = some e) :
    env.mapViewRes ma fh fl (winMapLen r2) addr1 = 0 ∧
    (winMapStep env s ma fh fl r2 native addr1 trPre).st
      = (RegionW.priv_close env.flushRes { r2 with m_base := 0 }).1 ∧
    (winMapStep env s ma fh fl r2 native addr1 trPre).tr
      = ((trPre ++ [OsCall.mapViewOfFileEx ma fh fl (winMapLen r2) addr1 0])
          ++ (if s = false then [OsCall.closeHandle native] else []))
        ++ (RegionW.priv_close env.flushRes { r2 with m_base := 0 }).2 := by
  unfold winMapStep at h ⊢
  dsimp only at h ⊢
  by_cases hraw : env.mapViewRes ma fh fl (winMapLen r2) addr1 = 0
  · rw [if_pos hraw] at h ⊢
    rw [hraw]
    dsimp only
    refine ⟨rfl, rfl, ?_⟩
    by_cases hs : s = false
    · rw [if_pos hs, if_pos hs]
    · rw [if_neg hs, if_neg hs]
      simp
  · rw [if_neg hraw] at h
    simp at h

/-- Success characterisation of the Windows constructor: on success the stored
members are the user offset, the resolved size of the size/create step, and
the extra offset from the signed division by the granularity, and the trace
contains exactly one map_view_of_file_ex call, whose result is the stored base
minus the extra offset and whose length is the m_size ? extra + size : 0
ternary. -/
theorem winConstruct_success (env : WinEnv) (is_shm : Bool) (handle : Int) (mode : ModeT)
    (offset : Int) (size0 : Nat) (address : Int) (fa ma : Nat)
    (hacc : winAccess mode = some (fa, ma))
    (h : (winConstruct env is_shm handle mode offset size0 address).res = none) :
    (winConstruct env is_shm handle mode offset size0 address).st.m_size
      = (winSizeCreateStep env is_shm fa offset size0).1.2.1 ∧
    (winConstruct env is_shm handle mode offset size0 address).st.m_offset = offset ∧
    (winConstruct env is_shm handle mode offset size0 address).st.m_extra_offset
      = offset - Int.tdiv offset (env.granularity : Int) * (env.granularity : Int) ∧
    wmapCalls (winConstruct env is_shm handle mode offset size0 address).tr
      = [((winConstruct env is_shm handle mode offset size0 address).st.m_base
            - (winConstruct env is_shm handle mode offset size0 address).st.m_extra_offset,
          if (winConstruct env is_shm handle mode offset size0 address).st.m_size ≠ 0 then
            toU32 ((winConstruct env is_shm handle mode offset size0 address).st.m_extra_offset
              + ((winConstruct env is_shm handle mode offset size0 address).st.m_size : Int))
          else 0)] ∧
    (winSizeCreateStep env is_shm fa offset size0).1.1 = none := by
  obtain ⟨hscW, -⟩ := winSizeCreateStep_facts env is_shm fa offset size0
  unfold winConstruct at h ⊢
  rw [hacc] at h ⊢
  dsimp only at h ⊢
  rcases hsc : winSizeCreateStep env is_shm fa offset size0 with ⟨⟨oe, sz, n0⟩, tr1⟩
  rw [hsc] at h hscW
  dsimp only at hscW
  cases oe with
  | some e => simp at h
  | none =>
    dsimp only at h ⊢
    obtain ⟨hdW, hfields⟩ :=
      winDupStep_facts env is_shm handle (winStoreMembers env.granularity offset sz) n0
    rcases hds : winDupStep env is_shm handle (winStoreMembers env.granularity offset sz) n0
      with ⟨⟨oe2, r2, native⟩, tr2⟩
    rw [hds] at h hdW hfields
    dsimp only at hdW
    cases oe2 with
    | some e => simp at h
    | none =>
      dsimp only at h hfields ⊢
      obtain ⟨hb, hs, ho, he⟩ := hfields rfl
      obtain ⟨hraw, hst, htr⟩ := winMapStep_success _ _ _ _ _ _ _ _ _ h
      rw [hst, htr]
      dsimp only
      refine ⟨?_, ?_, ?_, ?_, rfl⟩
      · rw [hs]
        rfl
      · rw [ho]
        rfl
      · rw [he]
        rfl
      · by_cases hshm : is_shm = false
        · rw [if_pos hshm]
          simp [wmapCalls_append, wmapCalls, hscW, hdW, winMapLen, add_sub_cancel_right]
        · rw [if_neg hshm]
          simp [wmapCalls_append, wmapCalls, hscW, hdW, winMapLen, add_sub_cancel_right]

/-- C8: for all (offset, size) with an explicit size != 0 (size == 0 is the
documented whole-object sentinel resolved by C1's step), after a successful
construct get_offset() returns the requested offset and get_size() the
requested size, on both builds and regardless of the alignment of offset
(no alignment hypothesis appears); the accessors are plain member reads
(total functions, never failing), and on an unmapped (default-constructed)
instance they return the sentinel base, size 0 and offset 0. -/
theorem c8_accessors (penv : PosixEnv) (wenv : WinEnv) (fd sh : Int) (is_shm : Bool)
    (mode : ModeT) (offset : Int) (size0 : Nat) (address : Int) (fa ma : Nat)
    (hsz : size0 ≠ 0) (hacc : winAccess mode = some (fa, ma)) :
    ((posixConstruct penv fd mode offset size0 address).res = none →
      (posixConstruct penv fd mode offset size0 address).st.get_size = size0 ∧
      (posixConstruct penv fd mode offset size0 address).st.get_offset = offset) ∧
    ((winConstruct wenv is_shm sh mode offset size0 address).res = none →
      (winConstruct wenv is_shm sh mode offset size0 address).st.get_size = size0 ∧
      (winConstruct wenv is_shm sh mode offset size0 address).st.get_offset = offset) ∧
    (defaultRegionP.get_address = mapFailed ∧ defaultRegionP.get_size = 0 ∧
      defaultRegionP.get_offset = 0) ∧
    (defaultRegionW.get_address = 0 ∧ defaultRegionW.get_size = 0 ∧
      defaultRegionW.get_offset = 0) := by
  refine ⟨?_, ?_, ⟨rfl, rfl, rfl⟩, ⟨rfl, rfl, rfl⟩⟩
  · intro h
    obtain ⟨h1, h2, -, -⟩ := posixConstruct_success penv fd mode offset size0 address h
    have hz := (posixSizeStep_cases penv.fileLen fd offset size0).2.2 hsz
    rw [hz] at h1
    exact ⟨h1, h2⟩
  · intro h
    obtain ⟨h1, h2, -, -, h5⟩ :=
      winConstruct_success wenv is_shm sh mode offset size0 address fa ma hacc h
    have hz := (winSizeCreateStep_facts wenv is_shm fa offset size0).2 hsz h5
    rw [hz] at h1
    exact ⟨h1, h2⟩

/-- C8 witness: c8_accessors applied to successful read-write constructions of
100 bytes at the unaligned offset 10 on both builds. -/
theorem c8_accessors_witness :
    (posixConstruct ⟨500, 4096, fun _ _ _ => 8192, fun _ _ => 0⟩ 3 .read_write 10 100 0).st.get_size
        = 100 ∧
    (posixConstruct ⟨500, 4096, fun _ _ _ => 8192, fun _ _ => 0⟩ 3 .read_write 10 100 0).st.get_offset
        = 10 ∧
    (winConstruct ⟨true, 500, 65536, 77, none, fun _ _ _ _ _ => 131072, fun _ _ => 0⟩
        false 3 .read_write 10 100 0).st.get_size = 100 ∧
    (winConstruct ⟨true, 500, 65536, 77, none, fun _ _ _ _ _ => 131072, fun _ _ => 0⟩
        false 3 .read_write 10 100 0).st.get_offset = 10 :=
  ⟨((c8_accessors ⟨500, 4096, fun _ _ _ => 8192, fun _ _ => 0⟩
      ⟨true, 500, 65536, 77, none, fun _ _ _ _ _ => 131072, fun _ _ => 0⟩
      3 3 false .read_write 10 100 0 4 2 (by decide) rfl).1 (by decide)).1,
   ((c8_accessors ⟨500, 4096, fun _ _ _ => 8192, fun _ _ => 0⟩
      ⟨true, 500, 65536, 77, none, fun _ _ _ _ _ => 131072, fun _ _ => 0⟩
      3 3 false .read_write 10 100 0 4 2 (by decide) rfl).1 (by decide)).2,
   ((c8_accessors ⟨500, 4096, fun _ _ _ => 8192, fun _ _ => 0⟩
      ⟨true, 500, 65536, 77, none, fun _ _ _ _ _ => 131072, fun _ _ => 0⟩
      3 3 false .read_write 10 100 0 4 2 (by decide) rfl).2.1 (by decide)).1,
   ((c8_accessors ⟨500, 4096, fun _ _ _ => 8192, fun _ _ => 0⟩
      ⟨true, 500, 65536, 77, none, fun _ _ _ _ _ => 131072, fun _ _ => 0⟩
      3 3 false .read_write 10 100 0 4 2 (by decide) rfl).2.1 (by decide)).2⟩

/-- C7 (amended): for every nonnegative requested offset (the unrestricted
claim fails at negative offsets on the Windows build, whose extra offset comes
from truncating signed division - see the counterexample), after every
successful construction the stored extra offset satisfies
0 <= extraOffset < pageGranularity and extraOffset = offset mod granularity on
both builds; the formulas it is proved equal to mention only the offset and
the cached granularity, so it depends on nothing else. -/
theorem c7_extra_offset_invariant (penv : PosixEnv) (wenv : WinEnv) (fd sh : Int)
    (is_shm : Bool) (mode : ModeT) (offset : Int) (size0 : Nat) (address : Int) (fa ma : Nat)
    (hoff : 0 ≤ offset) (hoff2 : offset < 2 ^ 63)
    (hgp : 0 < penv.pageSize) (hgp2 : (penv.pageSize : Int) ≤ 2 ^ 63)
    (hgw : 0 < wenv.granularity)
    (hacc : winAccess mode = some (fa, ma)) :
    ((posixConstruct penv fd mode offset size0 address).res = none →
      0 ≤ (posixConstruct penv fd mode offset size0 address).st.m_extra_offset ∧
      (posixConstruct penv fd mode offset size0 address).st.m_extra_offset
        < (penv.pageSize : Int) ∧
      (posixConstruct penv fd mode offset size0 address).st.m_extra_offset
        = offset % (penv.pageSize : Int)) ∧
    ((winConstruct wenv is_shm sh mode offset size0 address).res = none →
      0 ≤ (winConstruct wenv is_shm sh mode offset size0 address).st.m_extra_offset ∧
      (winConstruct wenv is_shm sh mode offset size0 address).st.m_extra_offset
        < (wenv.granularity : Int) ∧
      (winConstruct wenv is_shm sh mode offset size0 address).st.m_extra_offset
        = offset % (wenv.granularity : Int)) := by
  constructor
  · intro h
    obtain ⟨-, -, he, -⟩ := posixConstruct_success penv fd mode offset size0 address h
    have hu : toU64 offset = offset.toNat := by
      unfold toU64
      rw [Int.emod_eq_of_lt hoff (by omega)]
    have hgn : penv.pageSize ≤ 2 ^ 63 := by exact_mod_cast hgp2
    have hmod : toU64 offset - toU64 offset / penv.pageSize * penv.pageSize
        = offset.toNat % penv.pageSize := by
      rw [hu]
      have h2 := Nat.mod_add_div (offset.toNat) penv.pageSize
      have h3 : penv.pageSize * (offset.toNat / penv.pageSize)
          = offset.toNat / penv.pageSize * penv.pageSize := Nat.mul_comm _ _
      omega
    have hlt : offset.toNat % penv.pageSize < penv.pageSize := Nat.mod_lt _ hgp
    rw [hmod] at he
    have hi : i64ofU64 (offset.toNat % penv.pageSize)
        = ((offset.toNat % penv.pageSize : Nat) : Int) := by
      unfold i64ofU64
      rw [Nat.mod_eq_of_lt (by omega)]
      rw [if_pos (by omega)]
    rw [hi] at he
    refine ⟨by omega, ?_, ?_⟩
    · rw [he]
      exact_mod_cast hlt
    · rw [he]
      have : ((offset.toNat : Int)) = offset := Int.toNat_of_nonneg hoff
      push_cast
      rw [this]
  · intro h
    obtain ⟨-, -, he, -, -⟩ :=
      winConstruct_success wenv is_shm sh mode offset size0 address fa ma hacc h
    have hg0 : (0 : Int) < (wenv.granularity : Int) := by exact_mod_cast hgw
    have htd : Int.tdiv offset (wenv.granularity : Int) = offset / (wenv.granularity : Int) :=
      Int.tdiv_eq_ediv hoff (by omega)
    rw [htd] at he
    have hdef : offset - offset / (wenv.granularity : Int) * (wenv.granularity : Int)
        = offset % (wenv.granularity : Int) := by
      rw [Int.emod_def]
      ring
    rw [hdef] at he
    exact ⟨he ▸ Int.emod_nonneg offset (by omega),
           he ▸ Int.emod_lt_of_pos offset hg0, he⟩

/-- C7 witness: c7_extra_offset_invariant applied to successful constructions
at offset 10: the stored extra offset is 10 on both builds, nonnegative, below
the granularity, and equal to offset mod granularity. -/
theorem c7_extra_offset_invariant_witness :
    (0 ≤ (posixConstruct ⟨500, 4096, fun _ _ _ => 8192, fun _ _ => 0⟩
        3 .read_write 10 100 0).st.m_extra_offset ∧
      (posixConstruct ⟨500, 4096, fun _ _ _ => 8192, fun _ _ => 0⟩
        3 .read_write 10 100 0).st.m_extra_offset < ((4096 : Nat) : Int) ∧
      (posixConstruct ⟨500, 4096, fun _ _ _ => 8192, fun _ _ => 0⟩
        3 .read_write 10 100 0).st.m_extra_offset = 10 % ((4096 : Nat) : Int)) ∧
    (0 ≤ (winConstruct ⟨true, 500, 65536, 77, none, fun _ _ _ _ _ => 131072, fun _ _ => 0⟩
        false 3 .read_write 10 100 0).st.m_extra_offset ∧
      (winConstruct ⟨true, 500, 65536, 77, none, fun _ _ _ _ _ => 131072, fun _ _ => 0⟩
        false 3 .read_write 10 100 0).st.m_extra_offset < ((65536 : Nat) : Int) ∧
      (winConstruct ⟨true, 500, 65536, 77, none, fun _ _ _ _ _ => 131072, fun _ _ => 0⟩
        false 3 .read_write 10 100 0).st.m_extra_offset = 10 % ((65536 : Nat) : Int)) :=
  ⟨(c7_extra_offset_invariant ⟨500, 4096, fun _ _ _ => 8192, fun _ _ => 0⟩
      ⟨true, 500, 65536, 77, none, fun _ _ _ _ _ => 131072, fun _ _ => 0⟩
      3 3 false .read_write 10 100 0 4 2 (by decide) (by decide) (by decide) (by decide)
      (by decide) rfl).1 (by decide),
   (c7_extra_offset_invariant ⟨500, 4096, fun _ _ _ => 8192, fun _ _ => 0⟩
      ⟨true, 500, 65536, 77, none, fun _ _ _ _ _ => 131072, fun _ _ => 0⟩
      3 3 false .read_write 10 100 0 4 2 (by decide) (by decide) (by decide) (by decide)
      (by decide) rfl).2 (by decide)⟩

/-- C6 (amended): for every successfully constructed instance, the OS mapping
call in the trace returned base - extraOffset (the underlying mapping starts
extraOffset bytes below the user-visible base) and was handed length
(size_t)(extraOffset + size) - except that the Windows build hands 0, meaning
the whole section, when the stored size is 0 (shared memory mapped with
size 0), so the literal value passed can be less than extraOffset + size (see
the counterexample); and close/destruction releases exactly the underlying
region starting at base - extraOffset (with length size + extraOffset on the
POSIX build). -/
theorem c6_underlying_mapping (penv : PosixEnv) (wenv : WinEnv) (fd sh : Int)
    (is_shm : Bool) (mode : ModeT) (offset : Int) (size0 : Nat) (address : Int) (fa ma : Nat)
    (m f : Int → Nat → Int) (r : RegionP) (w : RegionW)
    (hacc : winAccess mode = some (fa, ma)) :
    ((posixConstruct penv fd mode offset size0 address).res = none →
      pmapCalls (posixConstruct penv fd mode offset size0 address).tr
        = [((posixConstruct penv fd mode offset size0 address).st.m_base
              - (posixConstruct penv fd mode offset size0 address).st.m_extra_offset,
            toU64 ((posixConstruct penv fd mode offset size0 address).st.m_extra_offset
              + ((posixConstruct penv fd mode offset size0 address).st.m_size : Int)))]) ∧
    ((winConstruct wenv is_shm sh mode offset size0 address).res = none →
      wmapCalls (winConstruct wenv is_shm sh mode offset size0 address).tr
        = [((winConstruct wenv is_shm sh mode offset size0 address).st.m_base
              - (winConstruct wenv is_shm sh mode offset size0 address).st.m_extra_offset,
            if (winConstruct wenv is_shm sh mode offset size0 address).st.m_size ≠ 0 then
              toU32 ((winConstruct wenv is_shm sh mode offset size0 address).st.m_extra_offset
                + ((winConstruct wenv is_shm sh mode offset size0 address).st.m_size : Int))
            else 0)]) ∧
    (r.m_base ≠ mapFailed → (RegionP.priv_close m r).2
        = (RegionP.flush m r 0 0).2
          ++ [.munmap (r.m_base - r.m_extra_offset)
                (toU64 ((r.m_size : Int) + r.m_extra_offset))]) ∧
    (w.m_base ≠ 0 → (RegionW.priv_close f w).2
        = (RegionW.flush f w 0 0).2 ++ [.unmapViewOfFile (w.m_base - w.m_extra_offset)]
          ++ (if w.m_file_mapping_hnd ≠ 0 then [.closeHandle w.m_file_mapping_hnd] else [])) := by
  refine ⟨fun h => (posixConstruct_success penv fd mode offset size0 address h).2.2.2,
          fun h => (winConstruct_success wenv is_shm sh mode offset size0 address
                      fa ma hacc h).2.2.2.1, ?_, ?_⟩
  · intro hb
    unfold RegionP.priv_close
    rw [if_pos hb]
  · intro hb
    unfold RegionW.priv_close
    dsimp only
    rw [if_pos hb]
    dsimp only
    by_cases hh : w.m_file_mapping_hnd ≠ 0
    · rw [if_pos hh, if_pos hh]
    · rw [if_neg hh, if_neg hh]
      simp

/-- C6 witness: the POSIX conjunct of c6_underlying_mapping at a successful
construction at offset 10 with size 100: the one mmap call returned
base - extraOffset = 8192 with length 110 = extraOffset + size, and the
Windows conjunct at the analogous construction: one map_view_of_file_ex call
returning 131072 with length 110. -/
theorem c6_underlying_mapping_witness :
    pmapCalls (posixConstruct ⟨500, 4096, fun _ _ _ => 8192, fun _ _ => 0⟩
        3 .read_write 10 100 0).tr = [(8192, 110)] ∧
    wmapCalls (winConstruct ⟨true, 500, 65536, 77, none, fun _ _ _ _ _ => 131072, fun _ _ => 0⟩
        false 3 .read_write 10 100 0).tr = [(131072, 110)] :=
  ⟨(c6_underlying_mapping ⟨500, 4096, fun _ _ _ => 8192, fun _ _ => 0⟩
      ⟨true, 500, 65536, 77, none, fun _ _ _ _ _ => 131072, fun _ _ => 0⟩
      3 3 false .read_write 10 100 0 4 2 (fun _ _ => 0) (fun _ _ => 0)
      ⟨4096, 100, 10, 10⟩ ⟨4096, 100, 10, 10, 0⟩ rfl).1 (by decide),
   (c6_underlying_mapping ⟨500, 4096, fun _ _ _ => 8192, fun _ _ => 0⟩
      ⟨true, 500, 65536, 77, none, fun _ _ _ _ _ => 131072, fun _ _ => 0⟩
      3 3 false .read_write 10 100 0 4 2 (fun _ _ => 0) (fun _ _ => 0)
      ⟨4096, 100, 10, 10⟩ ⟨4096, 100, 10, 10, 0⟩ rfl).2.1 (by decide)⟩

/-- C9: close/destruction (priv_close) of an already-unmapped instance is a
no-op that never fails: the members are unchanged and no OS call is issued, on
both builds (on the Windows build for the canonical unmapped states, which own
no handle: default-constructed, moved-from, or already closed).  On a mapped
instance it first issues the whole-region flush, then unmaps the underlying
region at base - extraOffset, then (Windows) closes the owned duplicated
handle when one is present; every OS result is ignored - the functions are
total and return no error - so teardown failures are suppressed, and a second
close after the first is again a no-op. -/
theorem c9_close_idempotent_teardown (m f : Int → Nat → Int) (r : RegionP) (w : RegionW) :
    (r.m_base = mapFailed → RegionP.priv_close m r = (r, [])) ∧
    (w.m_base = 0 → w.m_file_mapping_hnd = 0 → RegionW.priv_close f w = (w, [])) ∧
    (r.m_base ≠ mapFailed → 0 < r.m_size →
      RegionP.priv_close m r = ({ r with m_base := mapFailed },
        [.msync r.m_base r.m_size,
         .munmap (r.m_base - r.m_extra_offset)
           (toU64 ((r.m_size : Int) + r.m_extra_offset))])) ∧
    (w.m_base ≠ 0 → 0 < w.m_size →
      RegionW.priv_close f w = ({ w with m_base := 0, m_file_mapping_hnd := 0 },
        [.flushViewOfFile w.m_base w.m_size,
         .unmapViewOfFile (w.m_base - w.m_extra_offset)]
          ++ (if w.m_file_mapping_hnd ≠ 0 then [.closeHandle w.m_file_mapping_hnd] else []))) ∧
    (r.m_base ≠ mapFailed →
      RegionP.priv_close m (RegionP.priv_close m r).1 = ((RegionP.priv_close m r).1, [])) ∧
    (w.m_base ≠ 0 →
      RegionW.priv_close f (RegionW.priv_close f w).1 = ((RegionW.priv_close f w).1, [])) := by
  obtain ⟨rb, rs, ro, re⟩ := r
  obtain ⟨wb, ws, wo, we, wh⟩ := w
  refine ⟨?_, ?_, ?_, ?_, ?_, ?_⟩
  · intro hb
    simp only at hb
    subst hb
    simp [RegionP.priv_close]
  · intro hb hh
    simp only at hb hh
    subst hb
    subst hh
    simp [RegionW.priv_close]
  · intro hb hs
    simp only at hb hs
    have hg : ¬((0 : Nat) ≥ rs ∨ ((0 : Nat) + 0) % 2 ^ 64 > rs) := by
      simp
      omega
    simp only [RegionP.priv_close, RegionP.flush, if_pos hb, if_neg hg]
    simp
  · intro hb hs
    simp only at hb hs
    have hg : ¬((0 : Nat) ≥ ws ∨ ((0 : Nat) + 0) % 2 ^ 32 > ws) := by
      simp
      omega
    have hs0 : ¬(ws = 0) := by omega
    unfold RegionW.priv_close RegionW.flush
    dsimp only
    rw [if_pos hb]
    dsimp only
    rw [if_neg hb, if_neg hg, if_neg hs0, if_pos rfl]
    by_cases hh : wh ≠ 0
    · rw [if_pos hh, if_pos hh]
      simp
    · rw [if_neg hh, if_neg hh]
      push_neg at hh
      subst hh
      simp
  · intro hb
    simp only at hb
    simp [RegionP.priv_close, hb]
  · intro hb
    simp only at hb
    by_cases hh : wh ≠ 0
    · simp [RegionW.priv_close, hb, hh]
    · simp [RegionW.priv_close, hb, hh]

/-- C9 witness: c9_close_idempotent_teardown applied to the default (unmapped)
POSIX instance - a strict no-op - and to a concrete mapped POSIX instance with
base 4096, size 100, extra offset 10: flush of the whole region, then munmap
of 110 bytes at 4086, leaving the instance unmapped. -/
theorem c9_close_idempotent_teardown_witness :
    RegionP.priv_close (fun _ _ => 0) defaultRegionP = (defaultRegionP, []) ∧
    RegionP.priv_close (fun _ _ => 0) ⟨4096, 100, 10, 10⟩
      = (⟨mapFailed, 100, 10, 10⟩,
         [.msync 4096 100, .munmap (4096 - 10) (toU64 ((100 : Int) + 10))]) :=
  ⟨(c9_close_idempotent_teardown (fun _ _ => 0) (fun _ _ => 0)
      defaultRegionP defaultRegionW).1 rfl,
   (c9_close_idempotent_teardown (fun _ _ => 0) (fun _ _ => 0)
      ⟨4096, 100, 10, 10⟩ defaultRegionW).2.2.1 (by decide) (by decide)⟩

theorem runTrace_append (acc : List Res) (t1 t2 : List OsCall) :
    runTrace acc (t1 ++ t2) = runTrace (runTrace acc t1) t2 :=
  List.foldl_append ..

/-- Flush acquires and releases nothing. -/
theorem runTrace_flushP (m : Int → Nat → Int) (r : RegionP) (mo nb : Nat) (acc : List Res) :
    runTrace acc (RegionP.flush m r mo nb).2 = acc := by
  rcases flushP_tr m r mo nb with h | ⟨a, l, h⟩ <;>
    simp [h, runTrace, stepRes, acqOf, relOf]

/-- Flush acquires and releases nothing (Windows build). -/
theorem runTrace_flushW (f : Int → Nat → Int) (w : RegionW) (mo nb : Nat) (acc : List Res) :
    runTrace acc (RegionW.flush f w mo nb).2 = acc := by
  rcases flushW_tr f w mo nb with h | ⟨a, l, h⟩ <;>
    simp [h, runTrace, stepRes, acqOf, relOf]

/-- Resource balance of the non-shared-memory size/create step: on failure its
trace acquires nothing; on success it acquires exactly the created file
mapping handle, which is env.createRes and nonzero. -/
theorem winSizeCreateStep_false_shape (env : WinEnv) (fa : Nat) (off : Int) (s0 : Nat) :
    ((winSizeCreateStep env false fa off s0).1.1 ≠ none ∧
      ∀ acc, runTrace acc (winSizeCreateStep env false fa off s0).2 = acc) ∨
    ((winSizeCreateStep env false fa off s0).1.1 = none ∧
      (winSizeCreateStep env false fa off s0).1.2.2 = env.createRes ∧ env.createRes ≠ 0 ∧
      ∀ acc, runTrace acc (winSizeCreateStep env false fa off s0).2
        = acc ++ [Res.handle env.createRes]) := by
  unfold winSizeCreateStep
  rw [if_pos rfl]
  dsimp only
  by_cases h0 : s0 = 0
  · rw [if_pos h0]
    by_cases hg : env.getFileSizeOk = false
    · rw [if_pos hg]
      exact Or.inl ⟨by simp, fun acc => by simp [runTrace, stepRes, acqOf, relOf]⟩
    · rw [if_neg hg]
      by_cases hbig : env.fileSize > (2 ^ 32 - 1 : Int)
      · rw [if_pos hbig]
        exact Or.inl ⟨by simp, fun acc => by simp [runTrace, stepRes, acqOf, relOf]⟩
      · rw [if_neg hbig]
        dsimp only
        by_cases hc : env.createRes = 0
        · rw [if_pos hc]
          refine Or.inl ⟨by simp, fun acc => ?_⟩
          simp [runTrace, stepRes, acqOf, relOf, hc]
        · rw [if_neg hc]
          refine Or.inr ⟨rfl, rfl, hc, fun acc => ?_⟩
          simp [runTrace, stepRes, acqOf, relOf, hc]
  · rw [if_neg h0]
    dsimp only
    by_cases hc : env.createRes = 0
    · rw [if_pos hc]
      refine Or.inl ⟨by simp, fun acc => ?_⟩
      simp [runTrace, stepRes, acqOf, relOf, hc]
    · rw [if_neg hc]
      refine Or.inr ⟨rfl, rfl, hc, fun acc => ?_⟩
      simp [runTrace, stepRes, acqOf, relOf, hc]

/-- priv_close of a region whose base has been zeroed (the Windows
constructor's failure path) skips the unmap and closes the handle when one is
owned. -/
theorem privCloseW_zeroed (f : Int → Nat → Int) (w : RegionW) :
    RegionW.priv_close f { w with m_base := 0 }
      = (if w.m_file_mapping_hnd ≠ 0 then
          ({ w with m_base := 0, m_file_mapping_hnd := 0 },
           [OsCall.closeHandle w.m_file_mapping_hnd])
        else ({ w with m_base := 0 }, [])) := by
  by_cases hh : w.m_file_mapping_hnd ≠ 0 <;>
    simp [RegionW.priv_close, hh]

/-- Resource balance of a failed Windows construction: whatever step threw,
every acquired handle and view has been released, and the members at the
throw are unmapped with no owned handle.  dupRes well-formedness excludes the
impossible oracle outcome of a successful duplication returning the null
handle. -/
theorem winConstructAtomicAux (wenv : WinEnv) (is_shm : Bool) (sh : Int) (mode : ModeT)
    (offset : Int) (size0 : Nat) (address : Int) (e : IpcErr)
    (hdup : wenv.dupRes ≠ some 0)
    (h : (winConstruct wenv is_shm sh mode offset size0 address).res = some e) :
    openAfter (winConstruct wenv is_shm sh mode offset size0 address).tr = [] ∧
    (winConstruct wenv is_shm sh mode offset size0 address).st.m_base = 0 ∧
    (winConstruct wenv is_shm sh mode offset size0 address).st.m_file_mapping_hnd = 0 := by
  unfold winConstruct at h ⊢
  cases hacc : winAccess mode with
  | none =>
    rw [hacc] at h
    dsimp only at h ⊢
    exact ⟨rfl, rfl, rfl⟩
  | some p =>
    obtain ⟨fa, ma⟩ := p
    rw [hacc] at h
    dsimp only at h ⊢
    cases is_shm with
    | true =>
      have hsct : winSizeCreateStep wenv true fa offset size0 = ((none, size0, 0), []) := by
        unfold winSizeCreateStep
        rw [if_neg (by simp)]
      rw [hsct] at h ⊢
      dsimp only at h ⊢
      rcases hdr : wenv.dupRes with - | d
      · have hpcr : RegionW.priv_close wenv.flushRes
            (winStoreMembers wenv.granularity offset size0)
            = (winStoreMembers wenv.granularity offset size0, []) := by
          have hb1 : ¬((winStoreMembers wenv.granularity offset size0).m_base ≠ 0) := by
            simp [winStoreMembers, defaultRegionW]
          have hh1 : ¬((winStoreMembers wenv.granularity offset size0).m_file_mapping_hnd
              ≠ 0) := by
            simp [winStoreMembers, defaultRegionW, invalid_file]
          unfold RegionW.priv_close
          dsimp only
          rw [if_neg hb1]
          dsimp only
          rw [if_neg hh1]
        have hdupt : winDupStep wenv true sh (winStoreMembers wenv.granularity offset size0) 0
            = ((some .system_error, winStoreMembers wenv.granularity offset size0, 0),
               [OsCall.duplicateHandle sh none]) := by
          unfold winDupStep
          rw [if_pos rfl, hdr]
          dsimp only
          rw [hpcr]
          simp
        rw [hdupt] at h ⊢
        dsimp only at h ⊢
        exact ⟨by simp [openAfter, runTrace, stepRes, acqOf, relOf],
               by simp [winStoreMembers, defaultRegionW],
               by simp [winStoreMembers, defaultRegionW, invalid_file]⟩
      · have hd0 : d ≠ 0 := fun hc => hdup (hc ▸ hdr)
        have hdupt : winDupStep wenv true sh (winStoreMembers wenv.granularity offset size0) 0
            = ((none, { winStoreMembers wenv.granularity offset size0 with
                        m_file_mapping_hnd := d }, d),
               [OsCall.duplicateHandle sh (some d)]) := by
          unfold winDupStep
          rw [if_pos rfl, hdr]
        rw [hdupt] at h ⊢
        dsimp only at h ⊢
        obtain ⟨hr0, hst, htr⟩ := winMapStep_fail _ _ _ _ _ _ _ _ _ _ h
        rw [hst, htr, privCloseW_zeroed]
        have hcond : ({ winStoreMembers wenv.granularity offset size0 with
            m_file_mapping_hnd := d } : RegionW).m_file_mapping_hnd ≠ 0 := hd0
        rw [if_pos hcond]
        dsimp only
        refine ⟨?_, rfl, rfl⟩
        simp [openAfter, runTrace_append, runTrace, stepRes, acqOf, relOf]
    | false =>
      rcases winSizeCreateStep_false_shape wenv fa offset size0 with
        ⟨herr, hneu⟩ | ⟨hok, hnat, hc0, haccum⟩
      · rcases hsc : winSizeCreateStep wenv false fa offset size0 with ⟨⟨oe, sz, n0⟩, tr1⟩
        rw [hsc] at h herr hneu
        dsimp only at herr hneu
        cases oe with
        | none => exact absurd rfl herr
        | some e2 =>
          dsimp only at h ⊢
          exact ⟨hneu [], rfl, rfl⟩
      · rcases hsc : winSizeCreateStep wenv false fa offset size0 with ⟨⟨oe, sz, n0⟩, tr1⟩
        rw [hsc] at h hok hnat haccum
        dsimp only at hok hnat haccum
        cases oe with
        | some e2 => exact absurd hok (by simp)
        | none =>
          dsimp only at h ⊢
          have hdupt : winDupStep wenv false sh (winStoreMembers wenv.granularity offset sz) n0
              = ((none, winStoreMembers wenv.granularity offset sz, n0), []) := by
            unfold winDupStep
            rw [if_neg (by simp)]
          rw [hdupt] at h ⊢
          dsimp only at h ⊢
          obtain ⟨hr0, hst, htr⟩ := winMapStep_fail _ _ _ _ _ _ _ _ _ _ h
          rw [hst, htr, privCloseW_zeroed]
          have hcond : ¬((winStoreMembers wenv.granularity offset sz).m_file_mapping_hnd
              ≠ 0) := by
            simp [winStoreMembers, defaultRegionW, invalid_file]
          rw [if_neg hcond]
          dsimp only
          refine ⟨?_, rfl, by simp [winStoreMembers, defaultRegionW, invalid_file]⟩
          rw [hnat, if_pos rfl]
          unfold openAfter
          rw [List.append_nil, List.append_nil, runTrace_append, runTrace_append, haccum]
          simp [runTrace, stepRes, acqOf, relOf]

/-- C5: construction is atomic.  On any failure at any step, every OS resource
the constructor acquired (the POSIX mapping; the Windows created or duplicated
mapping handle and mapped view) has been released again by the time the
failure is signalled - openAfter of the trace is empty - and the member state
at the throw is unmapped (POSIX base MAP_FAILED; Windows base 0 and no owned
handle), so no partially-mapped state is observable.  The hypotheses are
well-formedness of the OS oracles: a successfully duplicated handle is
nonzero, the page size is a positive value below 2^63, and mmap returns
MAP_FAILED or a nonnegative address (so that adding the extra offset to a
successful mmap result cannot collide with the MAP_FAILED sentinel). -/
theorem c5_construct_atomic (penv : PosixEnv) (wenv : WinEnv) (fd sh : Int) (is_shm : Bool)
    (mode : ModeT) (offset : Int) (size0 : Nat) (address : Int) (e : IpcErr)
    (hdup : wenv.dupRes ≠ some 0)
    (hpg0 : 0 < penv.pageSize) (hpg : penv.pageSize ≤ 2 ^ 63)
    (hmap : ∀ hint len foff, penv.mmapRes hint len foff = mapFailed
      ∨ 0 ≤ penv.mmapRes hint len foff) :
    ((posixConstruct penv fd mode offset size0 address).res = some e →
      openAfter (posixConstruct penv fd mode offset size0 address).tr = [] ∧
      (posixConstruct penv fd mode offset size0 address).st.m_base = mapFailed) ∧
    ((winConstruct wenv is_shm sh mode offset size0 address).res = some e →
      openAfter (winConstruct wenv is_shm sh mode offset size0 address).tr = [] ∧
      (winConstruct wenv is_shm sh mode offset size0 address).st.m_base = 0 ∧
      (winConstruct wenv is_shm sh mode offset size0 address).st.m_file_mapping_hnd = 0) := by
  constructor
  · intro h
    obtain ⟨htr, -, -⟩ := posixSizeStep_cases penv.fileLen fd offset size0
    unfold posixConstruct at h ⊢
    rcases hps : posixSizeStep penv.fileLen fd offset size0 with ⟨⟨oe, sz⟩, tr0⟩
    rw [hps] at h htr
    dsimp only at htr
    cases oe with
    | some e2 =>
      dsimp only at h ⊢
      rcases htr with he | he <;> subst he <;>
        exact ⟨by simp [openAfter, runTrace, stepRes, acqOf, relOf], rfl⟩
    | none =>
      dsimp only at h ⊢
      cases hpf : posixProtFlags mode with
      | none =>
        rcases htr with he | he <;> subst he <;>
          exact ⟨by simp [openAfter, runTrace, stepRes, acqOf, relOf], rfl⟩
      | some pf =>
        obtain ⟨prot, flags⟩ := pf
        rw [hpf] at h
        dsimp only at h ⊢
        have hmodlt : toU64 offset - toU64 offset / penv.pageSize * penv.pageSize
            < penv.pageSize := by
          have h2 := Nat.mod_add_div (toU64 offset) penv.pageSize
          have h3 : penv.pageSize * (toU64 offset / penv.pageSize)
              = toU64 offset / penv.pageSize * penv.pageSize := Nat.mul_comm _ _
          have h4 := Nat.mod_lt (toU64 offset) hpg0
          omega
        have hext : 0 ≤ i64ofU64 (toU64 offset - toU64 offset / penv.pageSize * penv.pageSize)
            := by
          unfold i64ofU64
          rw [Nat.mod_eq_of_lt (by omega), if_pos (by omega)]
          exact_mod_cast Nat.zero_le _
        set extra := i64ofU64 (toU64 offset - toU64 offset / penv.pageSize * penv.pageSize)
          with hex
        set address1 := (if address ≠ 0 then address - extra else address) with had
        set mapLen := toU64 (extra + (sz : Int)) with hml
        set raw := penv.mmapRes address1 mapLen (offset - extra) with hrw
        by_cases hraw : raw = mapFailed
        · rw [if_pos hraw] at h ⊢
          have hpc : RegionP.priv_close penv.msyncRes
              { m_base := raw, m_size := sz, m_offset := offset, m_extra_offset := extra }
              = ({ m_base := raw, m_size := sz, m_offset := offset, m_extra_offset := extra },
                 []) := by
            unfold RegionP.priv_close
            rw [if_neg (by simp [hraw])]
          rw [hpc]
          dsimp only
          refine ⟨?_, hraw⟩
          rcases htr with he | he <;> subst he <;>
            simp [openAfter, runTrace, stepRes, acqOf, relOf, hraw]
        · rw [if_neg hraw] at h ⊢
          have hne : raw + extra ≠ mapFailed := by
            rcases hmap address1 mapLen (offset - extra) with hc | hc
            · rw [← hrw] at hc
              exact absurd hc hraw
            · rw [← hrw] at hc
              unfold mapFailed
              omega
          by_cases hfix : address1 ≠ 0 ∧ raw ≠ address1
          · rw [if_pos hfix] at h ⊢
            have hpc2 : RegionP.priv_close penv.msyncRes
                { m_base := raw + extra, m_size := sz, m_offset := offset,
                  m_extra_offset := extra }
                = ({ m_base := mapFailed, m_size := sz, m_offset := offset,
                     m_extra_offset := extra },
                   (RegionP.flush penv.msyncRes
                      { m_base := raw + extra, m_size := sz, m_offset := offset,
                        m_extra_offset := extra } 0 0).2
                     ++ [.munmap (raw + extra - extra) (toU64 ((sz : Int) + extra))]) := by
              unfold RegionP.priv_close
              rw [if_pos hne]
            rw [hpc2]
            dsimp only
            refine ⟨?_, rfl⟩
            have hlen : toU64 ((sz : Int) + extra) = mapLen := by
              rw [hml, Int.add_comm]
            rw [hlen, add_sub_cancel_right]
            rcases flushP_tr penv.msyncRes
                { m_base := raw + extra, m_size := sz, m_offset := offset,
                  m_extra_offset := extra } 0 0 with hf | ⟨a, l, hf⟩ <;>
              rcases htr with he | he <;> subst he <;> rw [hf] <;>
                simp [openAfter, runTrace, stepRes, acqOf, relOf, hraw]
          · rw [if_neg hfix] at h
            simp at h
  · intro h
    exact winConstructAtomicAux wenv is_shm sh mode offset size0 address e hdup h

/-- C5 witness: c5_construct_atomic applied to concrete failing
constructions - an invalid mode value on both builds: no resource is left
open and the members are the unmapped defaults. -/
theorem c5_construct_atomic_witness :
    (openAfter (posixConstruct ⟨500, 4096, fun _ _ _ => 8192, fun _ _ => 0⟩
        3 (.other 9) 0 0 0).tr = [] ∧
      (posixConstruct ⟨500, 4096, fun _ _ _ => 8192, fun _ _ => 0⟩
        3 (.other 9) 0 0 0).st.m_base = mapFailed) ∧
    (openAfter (winConstruct ⟨true, 500, 65536, 77, none, fun _ _ _ _ _ => 131072, fun _ _ => 0⟩
        false 3 (.other 9) 0 0 0).tr = [] ∧
      (winConstruct ⟨true, 500, 65536, 77, none, fun _ _ _ _ _ => 131072, fun _ _ => 0⟩
        false 3 (.other 9) 0 0 0).st.m_base = 0 ∧
      (winConstruct ⟨true, 500, 65536, 77, none, fun _ _ _ _ _ => 131072, fun _ _ => 0⟩
        false 3 (.other 9) 0 0 0).st.m_file_mapping_hnd = 0) :=
  ⟨(c5_construct_atomic ⟨500, 4096, fun _ _ _ => 8192, fun _ _ => 0⟩
      ⟨true, 500, 65536, 77, none, fun _ _ _ _ _ => 131072, fun _ _ => 0⟩
      3 3 false (.other 9) 0 0 0 .mode_error (by decide) (by decide) (by decide)
      (fun _ _ _ => Or.inr (by show (0 : Int) ≤ 8192; decide))).1 (by decide),
   (c5_construct_atomic ⟨500, 4096, fun _ _ _ => 8192, fun _ _ => 0⟩
      ⟨true, 500, 65536, 77, none, fun _ _ _ _ _ => 131072, fun _ _ => 0⟩
      3 3 false (.other 9) 0 0 0 .mode_error (by decide) (by decide) (by decide)
      (fun _ _ _ => Or.inr (by show (0 : Int) ≤ 8192; decide))).2 (by decide)⟩
